import Mathlib

/-!
Verification of the Vibe SlimProto audio endpoint against its natural-language
specification.  Each section shallowly embeds the relevant Rust source
(src/message.rs, src/pulse_out.rs, src/rodio_out.rs, src/decode.rs,
src/proto.rs) as executable Lean definitions and proves or refutes the
spec claims about them.
-/

/-! ### Two-slot playback queue (src/pulse_out.rs, `AudioOutput`)

The pulse backend keeps `playing : Option<Stream>` and `next_up : Option<Stream>`.
Streams are identified abstractly by a `Nat` tag.  The slot-changing operations
are `enqueue` (tail of `enqueue_new_stream`), `shift`, `stop`, `flush`;
`pause`/`unpause` only cork the playing stream and do not touch the slots. -/

structure PulseQueue where
  playing : Option Nat
  nextUp : Option Nat
deriving Repr, DecidableEq

def emptyQueue : PulseQueue := ⟨none, none⟩

/-- `AudioOutput::enqueue` (pulse_out.rs:419-433): if a playing slot exists the
new stream goes to `next_up`, otherwise it becomes `playing` (autostart only
triggers `play()`, which does not change the slots). -/
def pulseEnqueue (q : PulseQueue) (id : Nat) : PulseQueue :=
  if q.playing.isSome then { q with nextUp := some id } else { q with playing := some id }

/-- `AudioOutput::shift` (pulse_out.rs:471-484): `playing = next_up.take()`,
the old playing stream is disconnected. -/
def pulseShift (q : PulseQueue) : PulseQueue := ⟨q.nextUp, none⟩

/-- `AudioOutput::stop` (pulse_out.rs:457-465): disconnect playing, clear both slots. -/
def pulseStop (_q : PulseQueue) : PulseQueue := ⟨none, none⟩

/-- `AudioOutput::flush` (pulse_out.rs:467-469) simply calls `stop`. -/
def pulseFlush (q : PulseQueue) : PulseQueue := pulseStop q

/-- `AudioOutput::pause` corks the playing stream; slots unchanged. -/
def pulsePause (q : PulseQueue) : PulseQueue := q

/-- `AudioOutput::unpause` uncorks the playing stream; slots unchanged. -/
def pulseUnpause (q : PulseQueue) : PulseQueue := q

inductive QueueOp where
  | enqueueNewStream (id : Nat)
  | shift
  | stop
  | flush
  | pause
  | unpause
deriving Repr, DecidableEq

def queueApply (q : PulseQueue) : QueueOp → PulseQueue
  | .enqueueNewStream id => pulseEnqueue q id
  | .shift => pulseShift q
  | .stop => pulseStop q
  | .flush => pulseFlush q
  | .pause => pulsePause q
  | .unpause => pulseUnpause q

def queueRun (ops : List QueueOp) : PulseQueue :=
  ops.foldl queueApply emptyQueue

/-- Spec invariant P1: `next_up.is_some() ⇒ playing.is_some()`. -/
def queueOk (q : PulseQueue) : Bool := !q.nextUp.isSome || q.playing.isSome

lemma queueOk_step (q : PulseQueue) (op : QueueOp) (h : queueOk q = true) :
    queueOk (queueApply q op) = true := by
  cases op with
  | enqueueNewStream id =>
      simp only [queueApply, pulseEnqueue]
      by_cases hp : q.playing.isSome
      · simp [queueOk, hp]
      · simp [queueOk, hp]
  | shift => simp [queueApply, pulseShift, queueOk]
  | stop => simp [queueApply, pulseStop, queueOk]
  | flush => simp [queueApply, pulseFlush, pulseStop, queueOk]
  | pause => simpa [queueApply, pulsePause] using h
  | unpause => simpa [queueApply, pulseUnpause] using h

lemma queueOk_foldl (ops : List QueueOp) (q : PulseQueue) (h : queueOk q = true) :
    queueOk (ops.foldl queueApply q) = true := by
  induction ops generalizing q with
  | nil => simpa using h
  | cons op rest ih => exact ih (queueApply q op) (queueOk_step q op h)

/-- C2: starting from the empty two-slot queue, every sequence of
`enqueue_new_stream` / `shift` / `stop` / `flush` / `pause` / `unpause`
operations keeps the invariant `next_up.is_some() ⇒ playing.is_some()`. -/
theorem queue_shape_invariant (ops : List QueueOp) : queueOk (queueRun ops) = true :=
  queueOk_foldl ops emptyQueue rfl

/-! ### Stop/flush equivalence (src/pulse_out.rs:457-469, src/rodio_out.rs:252-261)

The rodio backend has a single `playing : Option<Stream>` slot.  `flush` drops
the slot; `stop` additionally calls the backend sink's stop (no slot change)
and then calls `flush`. -/

structure RodioOut where
  playing : Option Nat
deriving Repr, DecidableEq

/-- `rodio_out::AudioOutput::flush` (rodio_out.rs:259-261): drop the slot. -/
def rodioFlush (_s : RodioOut) : RodioOut := ⟨none⟩

/-- `rodio_out::AudioOutput::stop` (rodio_out.rs:252-257): stop the backend
sink of the playing slot (slot value unchanged), then `flush`. -/
def rodioStop (s : RodioOut) : RodioOut := rodioFlush s

/-- C6: in both backends, `flush()` and `stop()` are the same state
transformation, leaving every slot empty. -/
theorem flush_equals_stop (q : PulseQueue) (r : RodioOut) :
    pulseFlush q = pulseStop q ∧
    (pulseFlush q).playing = none ∧ (pulseFlush q).nextUp = none ∧
    rodioFlush r = rodioStop r ∧ (rodioFlush r).playing = none := by
  refine ⟨rfl, rfl, rfl, rfl, rfl⟩

/-! ### The global SKIP cell (src/message.rs:200-203, src/pulse_out.rs:318)

`SKIP` is a `crossbeam::atomic::AtomicCell<Duration>`; the `Skip(d)` server
message handler does `skip.store(d)` and the pulse fill callback consumes it
with `skip.take()`, which swaps in `Duration::ZERO` (the default) and returns
the old value.  Durations are modelled as microseconds. -/

/-- `AtomicCell::store`: replace the cell contents. -/
def skipStore (d : Nat) (_cell : Nat) : Nat := d

/-- `AtomicCell::take`: return the old contents, leaving `Duration::ZERO`. -/
def skipTake (cell : Nat) : Nat × Nat := (cell, 0)

inductive SkipOp where
  | store (d : Nat)
  | consume
deriving Repr, DecidableEq

/-- The SKIP cell contents after a sequence of `Skip(d)` handler runs
(`store`) and fill-callback consumptions (`consume`). -/
def skipRun (cell : Nat) : List SkipOp → Nat
  | [] => cell
  | .store d :: rest => skipRun (skipStore d cell) rest
  | .consume :: rest => skipRun (skipTake cell).2 rest

/-- C7: `Skip(d1); Skip(d2)` with no fill-callback between them leaves the
SKIP cell exactly as `Skip(d2)` alone, for every continuation; a fill-callback
consumption yields the stored duration and leaves the cell reading zero. -/
theorem skip_take_once (cell d1 d2 : Nat) (rest : List SkipOp) :
    skipRun cell (.store d1 :: .store d2 :: rest) = skipRun cell (.store d2 :: rest) ∧
    (skipTake (skipStore d1 cell)).1 = d1 ∧
    skipRun cell [.store d1, .consume] = 0 := by
  refine ⟨rfl, rfl, rfl⟩

/-! ### Per-track event emission (src/pulse_out.rs:200-353)

`enqueue_new_stream` prefills the audio buffer, then installs a write (fill)
callback and an underflow (end-of-data) callback on the pulse stream and sends
`StreamEstablished`.  Each call of `fill_raw_buffer` is abstracted by its
outcome: `Ok` after appending `n` bytes, `Err(EndOfDecode)` after appending
`n` bytes, or `Err(StreamError)` after appending `n` bytes
(`Err(Retry)` only re-runs the surrounding loop and is absorbed). -/

inductive FillOutcome where
  | filled (n : Nat)
  | endOfDecode (n : Nat)
  | streamError (n : Nat)
deriving Repr, DecidableEq

inductive TrackEvent where
  | connected
  | bufferThreshold
  | notSupported
  | streamEstablished
  | trackStarted
  | endOfDecode
  | drained
deriving Repr, DecidableEq

/-- The mutable state captured by the two pulse callbacks: the raw audio
buffer length, the closure-local `start_flag`, `draining`, and the shared
`drained` cell (pulse_out.rs:260-264). -/
structure TrackState where
  audioBuf : Nat
  startFlag : Bool
  draining : Bool
  drained : Bool
deriving Repr, DecidableEq

/-- The write (fill) callback (pulse_out.rs:267-336): return if drained; send
`TrackStarted` on the first invocation; run `fill_raw_buffer`, sending
`EndOfDecode` guarded by `draining` or `NotSupported` on a stream error; hand
`min(buf, len)` bytes to the backend; mark `drained` when draining on an
empty buffer. -/
def writeCallback (s : TrackState) (len : Nat) (o : FillOutcome) :
    TrackState × List TrackEvent :=
  if s.drained then (s, [])
  else
    let evs1 : List TrackEvent := if s.startFlag then [.trackStarted] else []
    let fillBytes : Nat :=
      match o with
      | .filled n => n
      | .endOfDecode n => n
      | .streamError n => n
    let evs2 : List TrackEvent :=
      match o with
      | .filled _ => []
      | .endOfDecode _ => if s.draining then [] else [.endOfDecode]
      | .streamError _ => [.notSupported]
    let draining2 : Bool :=
      match o with
      | .filled _ => s.draining
      | .endOfDecode _ => true
      | .streamError _ => true
    let buf2 := s.audioBuf + fillBytes
    let buf3 := if buf2 > 0 then buf2 - min buf2 len else buf2
    ({ audioBuf := buf3, startFlag := false, draining := draining2,
       drained := draining2 && buf3 == 0 }, evs1 ++ evs2)

/-- The underflow callback (pulse_out.rs:339-343): once the shared `drained`
cell is set, every invocation sends `Drained`. -/
def underflowCallback (s : TrackState) : TrackState × List TrackEvent :=
  (s, if s.drained then [.drained] else [])

inductive CallbackCall where
  | fill (len : Nat) (o : FillOutcome)
  | underflow
deriving Repr, DecidableEq

def callbackStep (s : TrackState) : CallbackCall → TrackState × List TrackEvent
  | .fill len o => writeCallback s len o
  | .underflow => underflowCallback s

def callbackRun (s : TrackState) : List CallbackCall → List TrackEvent
  | [] => []
  | c :: cs =>
    let step := callbackStep s c
    step.2 ++ callbackRun step.1 cs

/-- All events a single track instance sends to the control core
(pulse_out.rs:200-353): the prefill loop may send `EndOfDecode` or abort with
`NotSupported`; on success `StreamEstablished` is sent and then the installed
callbacks run. -/
def enqueueNewStreamEvents (prefill : FillOutcome) (calls : List CallbackCall) :
    List TrackEvent :=
  match prefill with
  | .streamError _ => [.notSupported]
  | .filled n => .streamEstablished :: callbackRun ⟨n, true, false, false⟩ calls
  | .endOfDecode n =>
      .endOfDecode :: .streamEstablished :: callbackRun ⟨n, true, false, false⟩ calls

/-- C3 counterexample: a short track whose prefill already hits end-of-decode
sends `EndOfDecode` twice (once from the prefill loop, once from the first
fill callback, whose `draining` flag starts out false), and two underflow
callbacks after draining send `Drained` twice. -/
theorem track_events_claim_counterexample :
    (enqueueNewStreamEvents (.endOfDecode 0)
        [.fill 4 (.endOfDecode 0), .underflow, .underflow]).count .endOfDecode = 2 ∧
    (enqueueNewStreamEvents (.endOfDecode 0)
        [.fill 4 (.endOfDecode 0), .underflow, .underflow]).count .drained = 2 := by
  decide

def tsBudget (b : Bool) : Nat := if b then 1 else 0

def eodBudget (b : Bool) : Nat := if b then 0 else 1

lemma callbackStep_count_se (s : TrackState) (c : CallbackCall) :
    (callbackStep s c).2.count TrackEvent.streamEstablished = 0 := by
  cases c with
  | underflow =>
      by_cases h : s.drained <;> simp [callbackStep, underflowCallback, h]
  | fill len o =>
      by_cases hd : s.drained
      · simp [callbackStep, writeCallback, hd]
      · cases o with
        | filled n =>
            by_cases hs : s.startFlag <;>
              simp [callbackStep, writeCallback, hd, hs]
        | endOfDecode n =>
            by_cases hs : s.startFlag <;> by_cases hdr : s.draining <;>
              simp [callbackStep, writeCallback, hd, hs, hdr]
        | streamError n =>
            by_cases hs : s.startFlag <;>
              simp [callbackStep, writeCallback, hd, hs]

lemma callbackRun_count_se (calls : List CallbackCall) (s : TrackState) :
    (callbackRun s calls).count TrackEvent.streamEstablished = 0 := by
  induction calls generalizing s with
  | nil => simp [callbackRun]
  | cons c cs ih =>
      simp [callbackRun, List.count_append, callbackStep_count_se, ih]

lemma callbackStep_ts (s : TrackState) (c : CallbackCall) :
    (callbackStep s c).2.count TrackEvent.trackStarted
      + tsBudget (callbackStep s c).1.startFlag ≤ tsBudget s.startFlag := by
  cases c with
  | underflow =>
      by_cases h : s.drained <;> simp [callbackStep, underflowCallback, h, tsBudget]
  | fill len o =>
      by_cases hd : s.drained
      · simp [callbackStep, writeCallback, hd]
      · cases o with
        | filled n =>
            by_cases hs : s.startFlag <;>
              simp [callbackStep, writeCallback, hd, hs, tsBudget]
        | endOfDecode n =>
            by_cases hs : s.startFlag <;> by_cases hdr : s.draining <;>
              simp [callbackStep, writeCallback, hd, hs, hdr, tsBudget]
        | streamError n =>
            by_cases hs : s.startFlag <;>
              simp [callbackStep, writeCallback, hd, hs, tsBudget]

lemma callbackRun_ts (calls : List CallbackCall) (s : TrackState) :
    (callbackRun s calls).count TrackEvent.trackStarted ≤ tsBudget s.startFlag := by
  induction calls generalizing s with
  | nil => simp [callbackRun]
  | cons c cs ih =>
      have hstep := callbackStep_ts s c
      have hrest := ih (callbackStep s c).1
      calc (callbackRun s (c :: cs)).count TrackEvent.trackStarted
          = (callbackStep s c).2.count TrackEvent.trackStarted
              + (callbackRun (callbackStep s c).1 cs).count TrackEvent.trackStarted := by
            simp [callbackRun, List.count_append]
        _ ≤ (callbackStep s c).2.count TrackEvent.trackStarted
              + tsBudget (callbackStep s c).1.startFlag := by omega
        _ ≤ tsBudget s.startFlag := hstep

lemma callbackStep_eod (s : TrackState) (c : CallbackCall) :
    (callbackStep s c).2.count TrackEvent.endOfDecode
      + eodBudget (callbackStep s c).1.draining ≤ eodBudget s.draining := by
  cases c with
  | underflow =>
      by_cases h : s.drained <;> simp [callbackStep, underflowCallback, h, eodBudget]
  | fill len o =>
      by_cases hd : s.drained
      · simp [callbackStep, writeCallback, hd]
      · cases o with
        | filled n =>
            by_cases hs : s.startFlag <;>
              simp [callbackStep, writeCallback, hd, hs, eodBudget]
        | endOfDecode n =>
            by_cases hs : s.startFlag <;> by_cases hdr : s.draining <;>
              simp [callbackStep, writeCallback, hd, hs, hdr, eodBudget]
        | streamError n =>
            by_cases hs : s.startFlag <;>
              simp [callbackStep, writeCallback, hd, hs, eodBudget]

lemma callbackRun_eod (calls : List CallbackCall) (s : TrackState) :
    (callbackRun s calls).count TrackEvent.endOfDecode ≤ eodBudget s.draining := by
  induction calls generalizing s with
  | nil => simp [callbackRun]
  | cons c cs ih =>
      have hstep := callbackStep_eod s c
      have hrest := ih (callbackStep s c).1
      calc (callbackRun s (c :: cs)).count TrackEvent.endOfDecode
          = (callbackStep s c).2.count TrackEvent.endOfDecode
              + (callbackRun (callbackStep s c).1 cs).count TrackEvent.endOfDecode := by
            simp [callbackRun, List.count_append]
        _ ≤ (callbackStep s c).2.count TrackEvent.endOfDecode
              + eodBudget (callbackStep s c).1.draining := by omega
        _ ≤ eodBudget s.draining := hstep

/-- C3 amended: per track instance, `StreamEstablished` and `TrackStarted`
are sent at most once over every callback sequence; `EndOfDecode` is sent at
most once by the fill callbacks plus possibly once more by the pre-roll fill,
so at most twice in total (`Drained` may repeat with every underflow callback
after the track has drained). -/
theorem track_events_amended (prefill : FillOutcome) (calls : List CallbackCall) :
    (enqueueNewStreamEvents prefill calls).count TrackEvent.streamEstablished ≤ 1 ∧
    (enqueueNewStreamEvents prefill calls).count TrackEvent.trackStarted ≤ 1 ∧
    (enqueueNewStreamEvents prefill calls).count TrackEvent.endOfDecode ≤ 2 := by
  cases prefill with
  | streamError n => simp [enqueueNewStreamEvents]
  | filled n =>
      have hts := callbackRun_ts calls ⟨n, true, false, false⟩
      have heod := callbackRun_eod calls ⟨n, true, false, false⟩
      simp [tsBudget] at hts
      simp [eodBudget] at heod
      refine ⟨?_, ?_, ?_⟩
      · simp [enqueueNewStreamEvents, callbackRun_count_se]
      · simp [enqueueNewStreamEvents, List.count_cons]
        omega
      · simp [enqueueNewStreamEvents, List.count_cons]
        omega
  | endOfDecode n =>
      have hts := callbackRun_ts calls ⟨n, true, false, false⟩
      have heod := callbackRun_eod calls ⟨n, true, false, false⟩
      simp [tsBudget] at hts
      simp [eodBudget] at heod
      refine ⟨?_, ?_, ?_⟩
      · simp [enqueueNewStreamEvents, callbackRun_count_se]
      · simp [enqueueNewStreamEvents, List.count_cons]
        omega
      · simp [enqueueNewStreamEvents, List.count_cons]
        omega

/-! ### Decoder time math (src/decode.rs:72-109, 375-381)

`dur_to_samples` is computed on `u64` values; products wrap modulo `2^64`
as Rust release-mode arithmetic does.  Durations enter as microseconds
(`dur.as_micros() as u64`). -/

inductive AudioFormat where
  | f32
  | i32
  | u32
  | i16
  | u16
deriving Repr, DecidableEq

/-- `AudioFormat::size_of` (decode.rs:82-90): byte width of one sample. -/
def AudioFormat.size_of : AudioFormat → Nat
  | .f32 => 4
  | .i32 => 4
  | .u32 => 4
  | .i16 => 2
  | .u16 => 2

/-- `AudioSpec` (decode.rs:105-109). -/
structure AudioSpec where
  channels : Nat
  sampleRate : Nat
  format : AudioFormat
deriving Repr, DecidableEq

/-- Wrapping `u64` multiplication. -/
def u64mul (a b : Nat) : Nat := a * b % 2 ^ 64

/-- `Decoder::dur_to_samples` (decode.rs:375-381):
`sample_rate as u64 * channels as u64 * format.size_of() as u64 * micros / 1_000_000`. -/
def dur_to_samples (spec : AudioSpec) (durMicros : Nat) : Nat :=
  u64mul (u64mul (u64mul spec.sampleRate spec.channels) spec.format.size_of)
    (durMicros % 2 ^ 64) / 1000000

def cdSpec : AudioSpec := ⟨2, 44100, .f32⟩

/-- C4 counterexample: for a stereo 44100 Hz F32 decoder and a duration of
one second, `dur_to_samples` returns 352800 = 44100 * 2 * 4 (a byte count),
not 88200 = sample_rate * channels * micros / 1_000_000 as the claim states. -/
theorem dur_to_samples_claim_counterexample :
    dur_to_samples cdSpec 1000000 ≠
      cdSpec.sampleRate * cdSpec.channels * 1000000 / 1000000 ∧
    dur_to_samples cdSpec 1000000 = 352800 := by
  refine ⟨by decide, by decide⟩

/-- C4 amended: in the absence of `u64` overflow, `dur_to_samples(d)` equals
`sample_rate * channels * format.size_of() * d_micros / 1_000_000` — it
includes the per-sample byte width, so it is a byte count rather than the
total number of samples across channels. -/
theorem dur_to_samples_amended (spec : AudioSpec) (micros : Nat)
    (h1 : spec.sampleRate * spec.channels < 2 ^ 64)
    (h2 : spec.sampleRate * spec.channels * spec.format.size_of < 2 ^ 64)
    (h3 : spec.sampleRate * spec.channels * spec.format.size_of * micros < 2 ^ 64)
    (h6 : micros < 2 ^ 64) :
    dur_to_samples spec micros =
      spec.sampleRate * spec.channels * spec.format.size_of * micros / 1000000 := by
  unfold dur_to_samples u64mul
  rw [Nat.mod_eq_of_lt h1, Nat.mod_eq_of_lt h2, Nat.mod_eq_of_lt h6,
    Nat.mod_eq_of_lt h3]

/-- Witness for `dur_to_samples_amended` at the CD-audio spec and one second. -/
theorem dur_to_samples_amended_witness :
    cdSpec.sampleRate * cdSpec.channels < 2 ^ 64 ∧
    cdSpec.sampleRate * cdSpec.channels * cdSpec.format.size_of < 2 ^ 64 ∧
    cdSpec.sampleRate * cdSpec.channels * cdSpec.format.size_of * 1000000 < 2 ^ 64 ∧
    1000000 < 2 ^ 64 ∧
    dur_to_samples cdSpec 1000000 =
      cdSpec.sampleRate * cdSpec.channels * cdSpec.format.size_of * 1000000 / 1000000 :=
  ⟨by decide, by decide, by decide, by decide,
    dur_to_samples_amended cdSpec 1000000 (by decide) (by decide) (by decide) (by decide)⟩

/-! ### Decoder construction parameter derivation (src/decode.rs:117-209)

`Decoder::try_new` derives the sample format, rate and channel count from the
server's PCM hints and the probed container's default track.
`track.codec_params` is `Option<CodecParameters>`; only the
`CodecParameters::Audio` variant carries audio parameters, so the model's
`Track.codecParams = none` covers both a missing and a non-audio entry.
The external symphonia probe and `make_audio_decoder` calls are taken as
succeeding; the model covers everything decided by this repository's code. -/

inductive PcmSampleSize where
  | eight
  | sixteen
  | twenty
  | thirtyTwo
  | selfDescribing
deriving Repr, DecidableEq

inductive PcmSampleRate where
  | rate (n : Nat)
  | selfDescribing
deriving Repr, DecidableEq

inductive PcmChannels where
  | mono
  | stereo
  | selfDescribing
deriving Repr, DecidableEq

inductive SampleFormat where
  | s8
  | s16
  | s24
  | s32
  | u16f
  | u32f
  | f32
  | f64f
deriving Repr, DecidableEq

/-- `impl From<SampleFormat> for AudioFormat` (decode.rs:93-103). -/
def sampleFormatToAudioFormat : SampleFormat → AudioFormat
  | .u16f => .u16
  | .s16 => .i16
  | .u32f => .u32
  | .s32 => .i32
  | _ => .f32

/-- The fields of `AudioCodecParameters` that `try_new` consults. -/
structure AudioCodecParams where
  sampleFormat : Option SampleFormat
  sampleRate : Option Nat
  channels : Option Nat
deriving Repr, DecidableEq

structure Track where
  codecParams : Option AudioCodecParams
deriving Repr, DecidableEq

/-- decode.rs:151-163: the sample format match. -/
def deriveSampleFormat (pss : PcmSampleSize) (t : Track) : Except String SampleFormat :=
  match pss with
  | .eight => .ok .s8
  | .sixteen => .ok .s16
  | .twenty => .ok .s24
  | .thirtyTwo => .ok .s32
  | .selfDescribing =>
      match t.codecParams with
      | some p =>
          match p.sampleFormat with
          | some sf => .ok sf
          | none => .error "Unable to set sample size"
      | none => .error "Unable to set sample size"

/-- decode.rs:165-174: the sample rate match. -/
def deriveSampleRate (psr : PcmSampleRate) (t : Track) : Except String Nat :=
  match psr with
  | .rate n => .ok n
  | .selfDescribing =>
      match t.codecParams with
      | some p =>
          match p.sampleRate with
          | some sr => .ok sr
          | none => .error "Unable to set sample rate"
      | none => .error "Unable to set sample rate"

/-- decode.rs:176-186: the channel count match (the only hint with a
hard-coded fallback, namely 2). -/
def deriveChannels (pch : PcmChannels) (t : Track) : Nat :=
  match pch with
  | .mono => 1
  | .stereo => 2
  | .selfDescribing =>
      match t.codecParams with
      | some p =>
          match p.channels with
          | some c => c
          | none => 2
      | none => 2

/-- decode.rs:189-194: extraction of the audio codec parameters handed to
`make_audio_decoder`. -/
def extractAudioParams (t : Track) : Except String AudioCodecParams :=
  match t.codecParams with
  | some p => .ok p
  | none => .error "Unable to extract audio parameters from stream"

/-- `Decoder::try_new` (decode.rs:118-209) up to the external
`make_audio_decoder` call (assumed to succeed). -/
def tryNew (pss : PcmSampleSize) (psr : PcmSampleRate) (pch : PcmChannels)
    (t : Track) : Except String AudioSpec := do
  let sf ← deriveSampleFormat pss t
  let sr ← deriveSampleRate psr t
  let ch := deriveChannels pch t
  let _ ← extractAudioParams t
  pure ⟨ch, sr, sampleFormatToAudioFormat sf⟩

def trackNoRate : Track := ⟨some ⟨some .s16, none, some 2⟩⟩

/-- C5 counterexample: with `pcmsamplerate = SelfDescribing` and a container
track that does not declare a sample rate, decoder construction fails with
`Unable to set sample rate` instead of falling back to 44100 Hz. -/
theorem format_fallback_claim_counterexample :
    tryNew .sixteen .selfDescribing .stereo trackNoRate =
      .error "Unable to set sample rate" ∧
    (tryNew .sixteen .selfDescribing .stereo trackNoRate).isOk = false := by
  refine ⟨rfl, rfl⟩

/-- C5 amended: when the server marks a parameter `SelfDescribing`, it is
taken from the container's declared track; when the container does not
declare it, only the channel count falls back (to 2) — a missing sample
format or sample rate makes construction fail rather than fall back to
stereo/44100/F32. -/
theorem format_fallback_amended (p : AudioCodecParams) (sf : SampleFormat) (sr : Nat)
    (hsf : p.sampleFormat = some sf) (hsr : p.sampleRate = some sr) :
    tryNew .selfDescribing .selfDescribing .selfDescribing ⟨some p⟩ =
      .ok ⟨(match p.channels with | some c => c | none => 2), sr,
        sampleFormatToAudioFormat sf⟩ ∧
    (∀ q : AudioCodecParams, q.sampleRate = none →
      tryNew .selfDescribing .selfDescribing .selfDescribing ⟨some q⟩ =
        .error "Unable to set sample rate" →
      (tryNew .selfDescribing .selfDescribing .selfDescribing ⟨some q⟩).isOk = false) ∧
    (∀ q : AudioCodecParams, q.sampleFormat = none →
      (tryNew .selfDescribing .selfDescribing .selfDescribing ⟨some q⟩).isOk = false) ∧
    (∀ q : AudioCodecParams, q.sampleFormat = some sf → q.sampleRate = none →
      (tryNew .selfDescribing .selfDescribing .selfDescribing ⟨some q⟩).isOk = false) := by
  refine ⟨?_, ?_, ?_, ?_⟩
  · simp only [tryNew, deriveSampleFormat, deriveSampleRate, deriveChannels,
      extractAudioParams, hsf, hsr]
    rfl
  · intro q _ herr
    simp [herr, Except.isOk, Except.toBool]
  · intro q hq
    simp only [tryNew, deriveSampleFormat, hq]
    rfl
  · intro q hqf hqr
    simp only [tryNew, deriveSampleFormat, deriveSampleRate, hqf, hqr]
    rfl

/-- Witness for `format_fallback_amended`: a track declaring S16 at 48000 Hz
with no channel count yields a 2-channel 48000 Hz I16 spec. -/
theorem format_fallback_amended_witness :
    (AudioCodecParams.mk (some .s16) (some 48000) none).sampleFormat = some .s16 ∧
    (AudioCodecParams.mk (some .s16) (some 48000) none).sampleRate = some 48000 ∧
    tryNew .selfDescribing .selfDescribing .selfDescribing
        ⟨some ⟨some .s16, some 48000, none⟩⟩ =
      .ok ⟨2, 48000, .i16⟩ :=
  ⟨rfl, rfl,
    (format_fallback_amended ⟨some .s16, some 48000, none⟩ .s16 48000 rfl rfl).1⟩

/-! ### HTTP data connection (src/decode.rs:384-444, `make_connection`)

`make_decoder` substitutes the default server IP when `server_ip` is the
unspecified address `0.0.0.0` (IPv4 addresses are modelled as their `u32`
value, so unspecified = 0).  `make_connection` pushes `http_headers.trim()`
into a vector, writes the vector joined with CRLF, then writes a final
CRLF CRLF pair.  Rust's `str::trim` strips Unicode whitespace from *both*
ends; the headers involved are ASCII, for which the whitespace set below
suffices. -/

def isRustWhitespaceChar (c : Char) : Bool :=
  c = ' ' || c = '\t' || c = '\n' || c = '\r'

/-- Leading-whitespace strip (the `trim_start` half of `str::trim`). -/
def trimStartChars (s : List Char) : List Char := s.dropWhile isRustWhitespaceChar

/-- Trailing-whitespace strip (`str::trim_end`). -/
def trimEndChars (s : List Char) : List Char :=
  (s.reverse.dropWhile isRustWhitespaceChar).reverse

/-- Rust `str::trim`: both ends. -/
def rustTrim (s : List Char) : List Char := trimEndChars (trimStartChars s)

def crlfChars : List Char := ['\r', '\n']

/-- `Vec::join("\r\n")` over the headers vector (decode.rs:437-440). -/
def joinCrlf : List (List Char) → List Char
  | [] => []
  | [x] => x
  | x :: rest => x ++ crlfChars ++ joinCrlf rest

/-- The bytes `make_connection` (decode.rs:435-444) writes to the socket
before any read: the joined headers vector followed by `"\r\n\r\n"`. -/
def connectionBytes (httpHeaders : List Char) : List Char :=
  joinCrlf [rustTrim httpHeaders] ++ (crlfChars ++ crlfChars)

/-- The byte sequence the claim describes: `http_headers.trim_end()` followed
by `"\r\n\r\n"`, leading whitespace preserved. -/
def specConnectionBytes (httpHeaders : List Char) : List Char :=
  trimEndChars httpHeaders ++ (crlfChars ++ crlfChars)

/-- decode.rs:401-405: `server_ip.is_unspecified()` selects the default. -/
def chooseIp (serverIp defaultIp : Nat) : Nat :=
  if serverIp = 0 then defaultIp else serverIp

/-- C8 counterexample: for `http_headers = " GET"` (leading space), the code
writes `"GET\r\n\r\n"` — `str::trim` strips the leading whitespace — whereas
the claim's `trim_end` form keeps it. -/
theorem connection_bytes_claim_counterexample :
    connectionBytes [' ', 'G', 'E', 'T'] ≠ specConnectionBytes [' ', 'G', 'E', 'T'] ∧
    connectionBytes [' ', 'G', 'E', 'T'] =
      ['G', 'E', 'T', '\r', '\n', '\r', '\n'] := by
  refine ⟨by decide, by decide⟩

/-- C8 amended: the bytes written before any read are
`http_headers.trim()` — whitespace stripped from both ends, so leading
whitespace is *not* preserved — followed by `"\r\n\r\n"`; the target address
substitutes the current default server IP exactly when `server_ip` is the
unspecified address. -/
theorem connection_bytes_amended (httpHeaders : List Char) (ip defaultIp : Nat) :
    connectionBytes httpHeaders =
      trimEndChars (trimStartChars httpHeaders) ++ (crlfChars ++ crlfChars) ∧
    chooseIp 0 defaultIp = defaultIp ∧
    chooseIp (ip + 1) defaultIp = ip + 1 := by
  refine ⟨rfl, rfl, by simp [chooseIp]⟩

/-! ### Protocol session redirect (src/proto.rs:9-118, `run`)

The session thread binds `let syncgroupid = String::new();` once, before the
outer connection loop, and never reassigns it.  Each outer-loop iteration
builds the Capabilities from that binding.  A `Serv` frame received in the
read loop replaces the server record with `(ip, sgid).into()`, forwards
`Serv { ip_address: ip, sync_group_id: None }` to the control core, and
breaks the inner loop so the outer loop reconnects to the new address. -/

inductive Capability where
  | firmware (v : String)
  | maxsamplerate (n : Nat)
  | syncgroupid (s : String)
  | pcm
  | mp3
  | aac
  | alc
  | ogg
  | flc
deriving Repr, DecidableEq

/-- Capability construction for one connection attempt (proto.rs:34-49). -/
def buildCaps (sgid : String) : List Capability :=
  [Capability.firmware "CARGO_PKG_VERSION", Capability.maxsamplerate 192000] ++
    (if sgid.length > 0 then [Capability.syncgroupid sgid] else []) ++
    [Capability.pcm, Capability.mp3, Capability.aac, Capability.alc,
      Capability.ogg, Capability.flc]

structure ServerRecord where
  ipAddress : Nat
  syncGroupId : Option String
deriving Repr, DecidableEq

/-- A `Serv` frame as forwarded to the control core. -/
structure ServFrame where
  ipAddress : Nat
  syncGroupId : Option String
deriving Repr, DecidableEq

/-- The session-thread state: the current server record plus the local
`syncgroupid` binding (proto.rs:30), initialised to the empty string. -/
structure ProtoSession where
  server : ServerRecord
  syncgroupid : String
deriving Repr, DecidableEq

def protoInit (initialIp : Nat) : ProtoSession := ⟨⟨initialIp, none⟩, ""⟩

/-- Handling of a redirect `Serv` frame (proto.rs:85-100): store the new
server record, forward `Serv` upstream with `sync_group_id: None`, break the
inner loop (the outer loop then reconnects).  `syncgroupid` is untouched. -/
def handleServRedirect (st : ProtoSession) (ip : Nat) (sgid : Option String) :
    ProtoSession × ServFrame :=
  ({ st with server := ⟨ip, sgid⟩ }, ⟨ip, none⟩)

/-- The Capabilities built for the next connection attempt (proto.rs:34-49). -/
def capsForConnection (st : ProtoSession) : List Capability :=
  buildCaps st.syncgroupid

def hasSyncGroupCap (caps : List Capability) : Bool :=
  caps.any fun c => match c with | .syncgroupid _ => true | _ => false

/-- C9 counterexample: after a redirect `Serv{ip=5, sgid="grp"}` the forwarded
frame does carry the new IP, but the Capabilities built for the new connection
contain no sync-group item at all — the local `syncgroupid` used to build them
is initialised empty and never updated, so the captured id is never advertised. -/
theorem serv_redirect_claim_counterexample :
    (handleServRedirect (protoInit 0) 5 (some "grp")).2.ipAddress = 5 ∧
    hasSyncGroupCap
      (capsForConnection (handleServRedirect (protoInit 0) 5 (some "grp")).1) = false ∧
    Capability.syncgroupid "grp" ∉
      capsForConnection (handleServRedirect (protoInit 0) 5 (some "grp")).1 := by
  refine ⟨rfl, rfl, by decide⟩

/-- C9 amended: a redirect `Serv` frame makes the session reconnect to the new
address and forwards a `Serv` with the new IP to the control core, but with
`sync_group_id: None`; the Capabilities built for the new connection never
include a sync-group id, because the binding used to build them stays empty
(the captured id lives only in the replaced server record). -/
theorem serv_redirect_amended (initialIp ip : Nat) (sgid : Option String) :
    ((handleServRedirect (protoInit initialIp) ip sgid).2).ipAddress = ip ∧
    ((handleServRedirect (protoInit initialIp) ip sgid).2).syncGroupId = none ∧
    ((handleServRedirect (protoInit initialIp) ip sgid).1).server.ipAddress = ip ∧
    ((handleServRedirect (protoInit initialIp) ip sgid).1).server.syncGroupId = sgid ∧
    hasSyncGroupCap
      (capsForConnection (handleServRedirect (protoInit initialIp) ip sgid).1) = false := by
  refine ⟨rfl, rfl, rfl, rfl, rfl⟩

/-! ### Discovery failure (src/proto.rs:14-21)

When no server address is supplied, `run` matches on `discover(None)`:
`Ok(Some(server))` is used, every other outcome (`Ok(None)` or `Err(_)`)
hits `unreachable!()`, which panics the session thread.  The panic is
modelled as an `Except.error` carrying the `unreachable!()` panic message. -/

inductive DiscoverResult where
  | found (server : Nat)
  | notFound
  | failed
deriving Repr, DecidableEq

/-- The server-selection match at proto.rs:15-21.  `Except.error` stands for
the thread panicking via `unreachable!()`. -/
def selectInitialServer (serverAddr : Option Nat) (disc : DiscoverResult) :
    Except String Nat :=
  match serverAddr with
  | some sock => .ok sock
  | none =>
      match disc with
      | .found server => .ok server
      | _ => .error "internal error: entered unreachable code"

/-- C10: with no server address supplied, a discovery outcome of error or
no-result makes the session thread panic through the `unreachable!()` arm —
it neither retries discovery nor returns an ordinary error value. -/
theorem discovery_failure_panics (disc : DiscoverResult)
    (h : disc = .notFound ∨ disc = .failed) :
    selectInitialServer none disc = .error "internal error: entered unreachable code" := by
  rcases h with h | h <;> subst h <;> rfl

/-- Witness for `discovery_failure_panics` at `Ok(None)`. -/
theorem discovery_failure_panics_witness :
    (DiscoverResult.notFound = DiscoverResult.notFound ∨
      DiscoverResult.notFound = DiscoverResult.failed) ∧
    selectInitialServer none .notFound =
      .error "internal error: entered unreachable code" :=
  ⟨Or.inl rfl, discovery_failure_panics .notFound (Or.inl rfl)⟩

/-! ### Volume handling for `Gain(l, r)` (src/message.rs:72-80)

The handler clamps each channel only from above (`if x > 1.0 { 1.0 } else
{ x as f32 }`) and stores `x.sqrt()`.  Numeric values are modelled as exact
rationals; `f32::sqrt` of a negative argument is NaN, so the argument passed
to the square root is modelled as `Option ℚ`, with `none` marking a negative
argument (a NaN store).  The stored volume itself is then
`Option.map (fun q => Real.sqrt q)` of that argument. -/

/-- The per-channel clamp of the `Gain` handler (message.rs:75-76): values
above 1 become 1, everything else — including negatives — passes through. -/
def gainClampUpper (x : ℚ) : ℚ := if x > 1 then 1 else x

/-- The argument handed to `f32::sqrt` (message.rs:77-78); `none` marks a
negative argument, for which `f32::sqrt` yields NaN. -/
def gainSqrtArg (x : ℚ) : Option ℚ :=
  if gainClampUpper x < 0 then none else some (gainClampUpper x)

/-- The `Gain(left, right)` handler body: both channels. -/
def processGain (left right : ℚ) : Option ℚ × Option ℚ :=
  (gainSqrtArg left, gainSqrtArg right)

/-- The spec's clamp to `[0, 1]`. -/
def clampSpec (x : ℚ) : ℚ := max 0 (min x 1)

/-- C1 counterexample: for `Gain(-1, -1)` the handler passes −1 to
`f32::sqrt` and stores NaN, while the claim demands the well-defined value
`sqrt(clamp(-1, 0, 1)) = 0 ∈ [0, 1]`. -/
theorem volume_claim_counterexample :
    (processGain (-1) (-1)).1 = none ∧
    Option.map (fun q : ℚ => Real.sqrt (q : ℝ)) (processGain (-1) (-1)).1 = none ∧
    some (Real.sqrt ((clampSpec (-1) : ℚ) : ℝ)) ≠
      Option.map (fun q : ℚ => Real.sqrt (q : ℝ)) (processGain (-1) (-1)).1 ∧
    Real.sqrt ((clampSpec (-1) : ℚ) : ℝ) = 0 := by
  have harg : (processGain (-1) (-1)).1 = none := by
    norm_num [processGain, gainSqrtArg, gainClampUpper]
  refine ⟨harg, by rw [harg]; rfl, by rw [harg]; simp, ?_⟩
  have hclamp : clampSpec (-1) = 0 := by norm_num [clampSpec]
  rw [hclamp]
  simp

/-- C1 amended: for non-negative inputs the handler stores exactly
`sqrt(min(input, 1))`, which equals the spec's `sqrt(clamp(input, 0, 1))` and
lies in `[0, 1]`; for negative inputs the missing lower clamp lets the
argument of `sqrt` go negative and NaN is stored instead. -/
theorem volume_amended (l r : ℚ) (hl : 0 ≤ l) (hr : 0 ≤ r) :
    processGain l r = (some (clampSpec l), some (clampSpec r)) ∧
    0 ≤ Real.sqrt ((clampSpec l : ℚ) : ℝ) ∧
    Real.sqrt ((clampSpec l : ℚ) : ℝ) ≤ 1 ∧
    0 ≤ Real.sqrt ((clampSpec r : ℚ) : ℝ) ∧
    Real.sqrt ((clampSpec r : ℚ) : ℝ) ≤ 1 := by
  have harg : ∀ x : ℚ, 0 ≤ x → gainSqrtArg x = some (clampSpec x) := by
    intro x hx
    by_cases hgt : x > 1
    · have hmin : min x 1 = 1 := min_eq_right (le_of_lt hgt)
      simp [gainSqrtArg, gainClampUpper, clampSpec, hgt, hmin]
    · have hle : x ≤ 1 := not_lt.mp hgt
      have hmin : min x 1 = x := min_eq_left hle
      have hmax : max 0 x = x := max_eq_right hx
      simp [gainSqrtArg, gainClampUpper, clampSpec, hgt, hmin, hmax, not_lt.mpr hx]
  have hle1 : ∀ x : ℚ, ((clampSpec x : ℚ) : ℝ) ≤ 1 := by
    intro x
    have : clampSpec x ≤ 1 := max_le zero_le_one (min_le_right x 1)
    exact_mod_cast this
  refine ⟨?_, Real.sqrt_nonneg _, Real.sqrt_le_one.mpr (hle1 l),
    Real.sqrt_nonneg _, Real.sqrt_le_one.mpr (hle1 r)⟩
  simp [processGain, harg l hl, harg r hr]

/-- Witness for `volume_amended` at `Gain(1, 0)`. -/
theorem volume_amended_witness :
    (0 : ℚ) ≤ 1 ∧ (0 : ℚ) ≤ 0 ∧
    (processGain 1 0 = (some (clampSpec 1), some (clampSpec 0)) ∧
      0 ≤ Real.sqrt ((clampSpec 1 : ℚ) : ℝ) ∧
      Real.sqrt ((clampSpec 1 : ℚ) : ℝ) ≤ 1 ∧
      0 ≤ Real.sqrt ((clampSpec 0 : ℚ) : ℝ) ∧
      Real.sqrt ((clampSpec 0 : ℚ) : ℝ) ≤ 1) :=
  ⟨zero_le_one, le_refl 0, volume_amended 1 0 zero_le_one (le_refl 0)⟩
